import Mathlib

/-
Shallow embedding of the mapa_precos repository.

The statistics module (src/utils.ts, calculateStats and isQuoteExpired)
is embedded over exact arithmetic: prices are real numbers, Math.sqrt is
Real.sqrt, and JavaScript integer millisecond timestamps are Int.
The persistence layer (the JSON file backend of the server and the
local storage backend in src/storage.ts, which perform the same
filter-based cascading delete) is embedded as a pure state transformer
on a record of three lists, and the express DELETE handlers as functions
returning an HTTP status code together with the new store state.
-/

namespace MapaPrecos

/-- Embedding of the quote_type union type, public or private, from types.ts. -/
inductive QuoteType where
  | public_
  | private_
deriving DecidableEq, Repr

/-- Embedding of the Quote record from types.ts.  The quote_date string is
represented by the integer millisecond timestamp that new Date(quote_date)
yields, since isQuoteExpired only ever uses getTime of the parsed date. -/
structure Quote where
  id : Int
  item_id : Int
  source : String
  quote_date : Int
  unit_price : ℝ
  quote_type : QuoteType

/-- Embedding of the Process record from types.ts; created_at is kept as the
raw string, it is never interpreted by the logic verified here. -/
structure Process where
  id : Int
  process_number : String
  object : String
  created_at : String

/-- Embedding of the Item record from types.ts; pricing_strategy is kept as
the raw string. -/
structure Item where
  id : Int
  process_id : Int
  item_number : Int
  specification : String
  unit : String
  quantity : ℚ
  pricing_strategy : String

/-- Embedding of the Stats output record from types.ts.  The two count
fields are natural numbers, the rest are exact reals. -/
structure Stats where
  min : ℝ
  mean : ℝ
  median : ℝ
  stdDev : ℝ
  cv : ℝ
  lowerLimit : ℝ
  upperLimit : ℝ
  sanitizedMean : ℝ
  totalEstimated : ℝ
  validQuotes : Nat
  outliersCount : Nat

/-! Helper definitions naming the successive local bindings of
calculateStats in src/utils.ts, each taken over an arbitrary price list
(calculateStats applies them to the sorted price list). -/

/-- The binding mean = sum / n of calculateStats. -/
noncomputable def mean (prices : List ℝ) : ℝ :=
  prices.sum / prices.length

/-- The binding variance = sum of squared deviations divided by n of
calculateStats (population variance). -/
noncomputable def variance (prices : List ℝ) : ℝ :=
  (prices.map (fun b => (b - mean prices) ^ 2)).sum / prices.length

/-- The binding stdDev = Math.sqrt(variance) of calculateStats. -/
noncomputable def stdDev (prices : List ℝ) : ℝ :=
  Real.sqrt (variance prices)

/-- The binding lowerLimit = mean - stdDev of calculateStats. -/
noncomputable def lowerLimit (prices : List ℝ) : ℝ :=
  mean prices - stdDev prices

/-- The binding upperLimit = mean + stdDev of calculateStats. -/
noncomputable def upperLimit (prices : List ℝ) : ℝ :=
  mean prices + stdDev prices

/-- The binding sanitizedPrices = prices.filter(p with lowerLimit <= p
and p <= upperLimit) of calculateStats. -/
noncomputable def sanitizedPrices (prices : List ℝ) : List ℝ :=
  prices.filter fun p => decide (lowerLimit prices ≤ p ∧ p ≤ upperLimit prices)

/-- The binding sanitizedMean of calculateStats: the mean of
sanitizedPrices when that list is non-empty, otherwise the raw mean. -/
noncomputable def sanitizedMean (prices : List ℝ) : ℝ :=
  if (sanitizedPrices prices).length > 0 then
    (sanitizedPrices prices).sum / (sanitizedPrices prices).length
  else mean prices

/-- The binding median of calculateStats: standard even or odd length
median of the (sorted) price list. -/
noncomputable def median (prices : List ℝ) : ℝ :=
  if prices.length % 2 = 0 then
    (prices.getD (prices.length / 2 - 1) 0 + prices.getD (prices.length / 2) 0) / 2
  else prices.getD (prices.length / 2) 0

/-- The first binding of calculateStats: the unit_price projection of the
quotes, sorted ascending as by the JavaScript comparator (a, b) => a - b. -/
noncomputable def prices (quotes : List Quote) : List ℝ :=
  (quotes.map Quote.unit_price).mergeSort fun a b => decide (a ≤ b)

/-- Embedding of calculateStats from src/utils.ts; the empty case returns
the all-zero record. -/
noncomputable def calculateStats (quotes : List Quote) (quantity : ℝ) : Stats :=
  if (prices quotes).length = 0 then
    { min := 0, mean := 0, median := 0, stdDev := 0, cv := 0,
      lowerLimit := 0, upperLimit := 0, sanitizedMean := 0,
      totalEstimated := 0, validQuotes := 0, outliersCount := 0 }
  else
    { min := (prices quotes).getD 0 0
      mean := mean (prices quotes)
      median := median (prices quotes)
      stdDev := stdDev (prices quotes)
      cv := if mean (prices quotes) ≠ 0 then
              stdDev (prices quotes) / mean (prices quotes) * 100
            else 0
      lowerLimit := lowerLimit (prices quotes)
      upperLimit := upperLimit (prices quotes)
      sanitizedMean := sanitizedMean (prices quotes)
      totalEstimated := sanitizedMean (prices quotes) * quantity
      validQuotes := (sanitizedPrices (prices quotes)).length
      outliersCount := (prices quotes).length - (sanitizedPrices (prices quotes)).length }

/-! Spec-side definitions, written from the wording of the specification
(mean of prices within the band lowerLimit to upperLimit, falling back to
the raw mean when the filtered set is empty), on the raw unsorted price
list, to be compared with the embedding of the code. -/

/-- Spec wording: the arithmetic mean of the prices. -/
noncomputable def specMean (prices : List ℝ) : ℝ :=
  prices.sum / prices.length

/-- Spec wording: the population standard deviation of the prices. -/
noncomputable def specStdDev (prices : List ℝ) : ℝ :=
  Real.sqrt ((prices.map (fun p => (p - specMean prices) ^ 2)).sum / prices.length)

/-- Spec wording: exactly those prices p with
mean - stdDev <= p <= mean + stdDev. -/
noncomputable def specInBand (prices : List ℝ) : List ℝ :=
  prices.filter fun p =>
    decide (specMean prices - specStdDev prices ≤ p ∧ p ≤ specMean prices + specStdDev prices)

/-- Spec wording: the mean of exactly those prices p in the one-sigma
band, and the raw mean when no price lies in that band. -/
noncomputable def specSanitizedMean (prices : List ℝ) : ℝ :=
  if specInBand prices = [] then specMean prices
  else (specInBand prices).sum / (specInBand prices).length

/-! Quote expiry classification, from isQuoteExpired in src/utils.ts. -/

/-- The constant 1000 * 60 * 60 * 24 used by isQuoteExpired. -/
def msPerDay : Int := 1000 * 60 * 60 * 24

/-- The expiry limit in days: 360 for quote_type public, 180 otherwise. -/
def quoteLimit : QuoteType → Nat
  | QuoteType.public_ => 360
  | QuoteType.private_ => 180

/-- Embedding of isQuoteExpired from src/utils.ts.  The current instant
now is passed explicitly as the integer millisecond timestamp that
new Date().getTime() yields; diffDays is Math.ceil of the absolute
millisecond difference divided by msPerDay, which for non-negative
integer input is the rounding-up integer division. -/
def isQuoteExpired (now : Int) (quote : Quote) : Bool :=
  let diffTime := (now - quote.quote_date).natAbs
  let diffDays := (diffTime + (msPerDay.toNat - 1)) / msPerDay.toNat
  decide (diffDays > quoteLimit quote.quote_type)

/-! Persistence layer: store state and cascading deletes, from the JSON
file backend of the server and from src/storage.ts (identical logic). -/

/-- The store state: the three collections of the JSON database. -/
structure DBData where
  processes : List Process
  items : List Item
  quotes : List Quote

/-- Embedding of the cascading process delete shared by
storage.deleteProcess in src/storage.ts and the DELETE processes handler
of the JSON file server: drop the process, drop its items, and drop the
quotes whose item_id is among the ids of the dropped items. -/
def deleteProcess (data : DBData) (id : Int) : DBData :=
  let processes := data.processes.filter fun p => p.id != id
  let itemsToDelete := data.items.filter fun i => i.process_id == id
  let items := data.items.filter fun i => i.process_id != id
  let itemIdsToDelete := itemsToDelete.map Item.id
  let quotes := data.quotes.filter fun q => !(itemIdsToDelete.contains q.item_id)
  { processes := processes, items := items, quotes := quotes }

/-- The referential integrity invariant of the data model: every item
references an existing process and every quote references an existing
item. -/
def refIntegrity (data : DBData) : Prop :=
  (∀ i ∈ data.items, ∃ p ∈ data.processes, p.id = i.process_id) ∧
  (∀ q ∈ data.quotes, ∃ i ∈ data.items, i.id = q.item_id)

/-- Embedding of the DELETE processes endpoint of the JSON file server:
it performs the cascading delete and always answers success (HTTP 200),
with no not-found check. -/
def deleteProcessEndpoint (data : DBData) (id : Int) : Nat × DBData :=
  (200, deleteProcess data id)

/-- Embedding of the DELETE items endpoint of the JSON file server: 404
and unchanged store when no item has the id, otherwise drop the item,
cascade to its quotes, and answer 200. -/
def deleteItemEndpoint (data : DBData) (id : Int) : Nat × DBData :=
  let items := data.items.filter fun i => i.id != id
  if items.length = data.items.length then (404, data)
  else
    let quotes := data.quotes.filter fun q => q.item_id != id
    (200, { data with items := items, quotes := quotes })

/-- Embedding of the DELETE quotes endpoint of the JSON file server: 404
and unchanged store when no quote has the id, otherwise drop the quote
and answer 200. -/
def deleteQuoteEndpoint (data : DBData) (id : Int) : Nat × DBData :=
  let quotes := data.quotes.filter fun q => q.id != id
  if quotes.length = data.quotes.length then (404, data)
  else (200, { data with quotes := quotes })

/-! Lemmas about the expiry classifier. -/

/-- Rounding-up division by the day length exceeds L exactly when the raw
millisecond difference exceeds L whole days. -/
lemma ceil_div_day_gt_iff (d L : Nat) :
    L < (d + (86400000 - 1)) / 86400000 ↔ L * 86400000 < d := by
  rw [Nat.lt_iff_add_one_le, Nat.le_div_iff_mul_le (by norm_num : 0 < 86400000)]
  omega

/-- Characterisation of isQuoteExpired: the quote is expired exactly when
the absolute millisecond difference exceeds the limit in whole days. -/
lemma isQuoteExpired_iff (now : Int) (q : Quote) :
    isQuoteExpired now q = true ↔
      quoteLimit q.quote_type * 86400000 < (now - q.quote_date).natAbs := by
  rw [show isQuoteExpired now q =
      decide (quoteLimit q.quote_type <
        ((now - q.quote_date).natAbs + (86400000 - 1)) / 86400000) from rfl]
  rw [decide_eq_true_eq]
  exact ceil_div_day_gt_iff _ _

/-- C3 counterexample: a private quote whose quote_date is the midnight
timestamp 0, checked when now is one hour past midnight 180 days later.
The quote is dated exactly 180 calendar days before today, yet
isQuoteExpired answers true, because the one extra hour of the current
day makes Math.ceil round the difference up to 181 days.  This refutes
the part of the claim stating that a private quote dated exactly 180
calendar days before today is not expired. -/
theorem isQuoteExpired_dated_180_days_ago_is_expired :
    isQuoteExpired (180 * msPerDay + 3600000)
      { id := 1, item_id := 1, source := "a", quote_date := 0,
        unit_price := 0, quote_type := QuoteType.private_ } = true := by
  decide

/-- C3 (amended): a private quote whose timestamp lies exactly 181 whole
days (in milliseconds) before the current instant is expired, and one
exactly 180 whole days before is not; however, since a date-only
quote_date string parses to midnight while now carries the time of day, a
private quote dated exactly 180 calendar days before today is reported
expired at every instant strictly after midnight, because Math.ceil
rounds the fractional day up to a 181st day. -/
theorem isQuoteExpired_private_180_181 (now t : Int) (q181 q180 : Quote)
    (h1 : q181.quote_type = QuoteType.private_)
    (h2 : q180.quote_type = QuoteType.private_)
    (hd1 : q181.quote_date = now - 181 * msPerDay)
    (hd2 : q180.quote_date = now - 180 * msPerDay)
    (ht0 : 0 < t) (htd : t < msPerDay) :
    isQuoteExpired now q181 = true ∧
    isQuoteExpired now q180 = false ∧
    isQuoteExpired (now + t) q180 = true := by
  refine ⟨?_, ?_, ?_⟩
  · rw [isQuoteExpired_iff, h1, hd1]
    have harith : now - (now - 181 * msPerDay) = 181 * msPerDay := by ring
    rw [harith]
    simp only [quoteLimit, msPerDay]
    omega
  · rw [Bool.eq_false_iff]
    intro h
    rw [isQuoteExpired_iff, h2, hd2] at h
    have harith : now - (now - 180 * msPerDay) = 180 * msPerDay := by ring
    rw [harith] at h
    simp only [quoteLimit, msPerDay] at h
    omega
  · rw [isQuoteExpired_iff, h2, hd2]
    have harith : now + t - (now - 180 * msPerDay) = 180 * msPerDay + t := by ring
    rw [harith]
    simp only [quoteLimit, msPerDay] at htd ⊢
    omega

/-- Witness for the amended C3 theorem at concrete inputs: now is the
timestamp 181 days after epoch, the first quote is dated at epoch, the
second one day after epoch, and the time-of-day offset is one hour. -/
theorem isQuoteExpired_private_180_181_witness :
    ({ id := 1, item_id := 1, source := "a", quote_date := 0,
       unit_price := 0, quote_type := QuoteType.private_ } : Quote).quote_date
        = 181 * msPerDay - 181 * msPerDay ∧
    ({ id := 2, item_id := 1, source := "b", quote_date := msPerDay,
       unit_price := 0, quote_type := QuoteType.private_ } : Quote).quote_date
        = 181 * msPerDay - 180 * msPerDay ∧
    (0 : Int) < 3600000 ∧ (3600000 : Int) < msPerDay ∧
    (isQuoteExpired (181 * msPerDay)
      { id := 1, item_id := 1, source := "a", quote_date := 0,
        unit_price := 0, quote_type := QuoteType.private_ } = true ∧
     isQuoteExpired (181 * msPerDay)
      { id := 2, item_id := 1, source := "b", quote_date := msPerDay,
        unit_price := 0, quote_type := QuoteType.private_ } = false ∧
     isQuoteExpired (181 * msPerDay + 3600000)
      { id := 2, item_id := 1, source := "b", quote_date := msPerDay,
        unit_price := 0, quote_type := QuoteType.private_ } = true) :=
  ⟨by decide, by decide, by decide, by decide,
   isQuoteExpired_private_180_181 (181 * msPerDay) 3600000 _ _
     rfl rfl (by decide) (by decide) (by decide) (by decide)⟩

/-- C10: a quote whose date lies in the future by more than the limit for
its quote_type (180 days private, 360 public) is reported expired,
because isQuoteExpired takes the absolute value of the time difference. -/
theorem isQuoteExpired_future (now : Int) (q : Quote)
    (h : q.quote_date - now > (quoteLimit q.quote_type : Int) * msPerDay) :
    isQuoteExpired now q = true := by
  rw [isQuoteExpired_iff]
  have harith : now - q.quote_date = -(q.quote_date - now) := by ring
  rw [harith, Int.natAbs_neg]
  simp only [msPerDay] at h
  omega

/-- Witness for the C10 theorem: a private quote dated 181 days in the
future of instant 0 is reported expired. -/
theorem isQuoteExpired_future_witness :
    ({ id := 1, item_id := 1, source := "s", quote_date := 181 * msPerDay,
       unit_price := 0, quote_type := QuoteType.private_ } : Quote).quote_date - 0 >
      (quoteLimit QuoteType.private_ : Int) * msPerDay ∧
    isQuoteExpired 0
      { id := 1, item_id := 1, source := "s", quote_date := 181 * msPerDay,
        unit_price := 0, quote_type := QuoteType.private_ } = true :=
  ⟨by decide,
   isQuoteExpired_future 0
     { id := 1, item_id := 1, source := "s", quote_date := 181 * msPerDay,
       unit_price := 0, quote_type := QuoteType.private_ } (by decide)⟩

/-! Shared lemmas about the statistics embedding. -/

/-- A lower bound of every element of a non-empty list bounds its mean. -/
lemma le_listMean_of_forall_le {l : List ℝ} {a : ℝ} (hne : l ≠ [])
    (h : ∀ x ∈ l, a ≤ x) : a ≤ l.sum / l.length := by
  have hlen : 0 < (l.length : ℝ) := by
    exact_mod_cast List.length_pos.mpr hne
  rw [le_div_iff₀ hlen]
  have hs := List.card_nsmul_le_sum l a h
  rwa [nsmul_eq_mul, mul_comm] at hs

/-- An upper bound of every element of a non-empty list bounds its mean. -/
lemma listMean_le_of_forall_le {l : List ℝ} {b : ℝ} (hne : l ≠ [])
    (h : ∀ x ∈ l, x ≤ b) : l.sum / l.length ≤ b := by
  have hlen : 0 < (l.length : ℝ) := by
    exact_mod_cast List.length_pos.mpr hne
  rw [div_le_iff₀ hlen]
  have hs := List.sum_le_card_nsmul l b h
  rwa [nsmul_eq_mul, mul_comm] at hs

/-- The sorted price list is a permutation of the raw price list. -/
lemma prices_perm (quotes : List Quote) :
    List.Perm (prices quotes) (quotes.map Quote.unit_price) :=
  List.mergeSort_perm _ _

/-- Sorting preserves the number of prices. -/
lemma prices_length (quotes : List Quote) :
    (prices quotes).length = quotes.length := by
  rw [(prices_perm quotes).length_eq, List.length_map]

/-- The sorted price list of a non-empty quote list is non-empty. -/
lemma prices_ne_nil {quotes : List Quote} (h : quotes ≠ []) :
    prices quotes ≠ [] := by
  intro h0
  apply h
  have hl := prices_length quotes
  rw [h0] at hl
  exact List.length_eq_zero.mp hl.symm

/-- The mean only depends on the multiset of prices. -/
lemma mean_perm {l₁ l₂ : List ℝ} (h : List.Perm l₁ l₂) : mean l₁ = mean l₂ := by
  unfold mean
  rw [h.sum_eq, h.length_eq]

/-- The variance only depends on the multiset of prices. -/
lemma variance_perm {l₁ l₂ : List ℝ} (h : List.Perm l₁ l₂) : variance l₁ = variance l₂ := by
  unfold variance
  rw [mean_perm h, (h.map _).sum_eq, h.length_eq]

/-- The standard deviation only depends on the multiset of prices. -/
lemma stdDev_perm {l₁ l₂ : List ℝ} (h : List.Perm l₁ l₂) : stdDev l₁ = stdDev l₂ := by
  unfold stdDev
  rw [variance_perm h]

/-- The lower band limit only depends on the multiset of prices. -/
lemma lowerLimit_perm {l₁ l₂ : List ℝ} (h : List.Perm l₁ l₂) : lowerLimit l₁ = lowerLimit l₂ := by
  unfold lowerLimit
  rw [mean_perm h, stdDev_perm h]

/-- The upper band limit only depends on the multiset of prices. -/
lemma upperLimit_perm {l₁ l₂ : List ℝ} (h : List.Perm l₁ l₂) : upperLimit l₁ = upperLimit l₂ := by
  unfold upperLimit
  rw [mean_perm h, stdDev_perm h]

/-- Filtered band lists of permuted price lists are permutations. -/
lemma sanitizedPrices_perm {l₁ l₂ : List ℝ} (h : List.Perm l₁ l₂) :
    List.Perm (sanitizedPrices l₁) (sanitizedPrices l₂) := by
  unfold sanitizedPrices
  simp only [lowerLimit_perm h, upperLimit_perm h]
  exact h.filter _

/-- The sanitized mean only depends on the multiset of prices. -/
lemma sanitizedMean_perm {l₁ l₂ : List ℝ} (h : List.Perm l₁ l₂) :
    sanitizedMean l₁ = sanitizedMean l₂ := by
  unfold sanitizedMean
  rw [(sanitizedPrices_perm h).length_eq, (sanitizedPrices_perm h).sum_eq, mean_perm h]

/-- The spec-side band filter coincides with the code-side one. -/
lemma specInBand_eq (l : List ℝ) : specInBand l = sanitizedPrices l := rfl

/-- The code-side sanitized mean equals the spec-side sanitized mean on
the same price list. -/
lemma sanitizedMean_eq_specSanitizedMean (l : List ℝ) :
    sanitizedMean l = specSanitizedMean l := by
  unfold sanitizedMean specSanitizedMean
  rw [specInBand_eq]
  by_cases hb : sanitizedPrices l = []
  · rw [if_pos hb, hb]
    simp [mean, specMean]
  · rw [if_neg hb, if_pos (List.length_pos.mpr hb)]

/-- Evaluation of calculateStats on the empty quote list. -/
lemma prices_nil : prices ([] : List Quote) = [] := by simp [prices]

/-- The all-zero record returned by calculateStats on the empty list. -/
lemma calculateStats_nil (quantity : ℝ) :
    calculateStats [] quantity =
      { min := 0, mean := 0, median := 0, stdDev := 0, cv := 0,
        lowerLimit := 0, upperLimit := 0, sanitizedMean := 0,
        totalEstimated := 0, validQuotes := 0, outliersCount := 0 } := by
  unfold calculateStats
  rw [prices_nil]
  rfl

/-- Evaluation of calculateStats on a non-empty quote list. -/
lemma calculateStats_of_ne_nil (quotes : List Quote) (quantity : ℝ) (h : quotes ≠ []) :
    calculateStats quotes quantity =
      { min := (prices quotes).getD 0 0
        mean := mean (prices quotes)
        median := median (prices quotes)
        stdDev := stdDev (prices quotes)
        cv := if mean (prices quotes) ≠ 0 then
                stdDev (prices quotes) / mean (prices quotes) * 100
              else 0
        lowerLimit := lowerLimit (prices quotes)
        upperLimit := upperLimit (prices quotes)
        sanitizedMean := sanitizedMean (prices quotes)
        totalEstimated := sanitizedMean (prices quotes) * quantity
        validQuotes := (sanitizedPrices (prices quotes)).length
        outliersCount :=
          (prices quotes).length - (sanitizedPrices (prices quotes)).length } := by
  unfold calculateStats
  rw [if_neg]
  rw [prices_length]
  exact fun h0 => h (List.length_eq_zero.mp h0)

/-- The sorted price list of a single quote. -/
lemma prices_singleton (q : Quote) : prices [q] = [q.unit_price] := by
  simp [prices]

/-- The mean of a single price. -/
lemma mean_singleton (v : ℝ) : mean [v] = v := by
  simp [mean]

/-- The variance of a single price is zero. -/
lemma variance_singleton (v : ℝ) : variance [v] = 0 := by
  simp [variance, mean_singleton]

/-- The standard deviation of a single price is zero. -/
lemma stdDev_singleton (v : ℝ) : stdDev [v] = 0 := by
  simp [stdDev, variance_singleton]

/-- The band filter keeps a single price. -/
lemma sanitizedPrices_singleton (v : ℝ) : sanitizedPrices [v] = [v] := by
  have h1 : lowerLimit [v] = v := by
    simp [lowerLimit, mean_singleton, stdDev_singleton]
  have h2 : upperLimit [v] = v := by
    simp [upperLimit, mean_singleton, stdDev_singleton]
  unfold sanitizedPrices
  simp [h1, h2]

/-- The sanitized mean of a single price. -/
lemma sanitizedMean_singleton (v : ℝ) : sanitizedMean [v] = v := by
  unfold sanitizedMean
  rw [sanitizedPrices_singleton]
  simp

/-- Some price always has squared deviation at most the variance: the
squared deviations cannot all strictly exceed their own average. -/
lemma exists_mem_sq_dev_le (l : List ℝ) (hne : l ≠ []) :
    ∃ p ∈ l, (p - mean l) ^ 2 ≤ variance l := by
  have hmne : l.map (fun p => (p - mean l) ^ 2) ≠ [] := by
    simpa using hne
  obtain ⟨m0, hm0⟩ :=
    WithTop.ne_top_iff_exists.mp (List.minimum_ne_top_of_ne_nil hmne)
  have hm0mem := List.minimum_mem hm0.symm
  obtain ⟨p, hp, hfp⟩ := List.mem_map.mp hm0mem
  refine ⟨p, hp, ?_⟩
  have hlb : ∀ y ∈ l.map (fun p => (p - mean l) ^ 2), m0 ≤ y :=
    fun y hy => List.minimum_le_of_mem hy hm0.symm
  have hm := le_listMean_of_forall_le hmne hlb
  rw [List.length_map] at hm
  have hv : m0 ≤ variance l := hm
  exact le_of_eq_of_le hfp hv

/-- The one-sigma band around the mean always catches at least one price
of a non-empty list. -/
lemma sanitizedPrices_ne_nil (l : List ℝ) (hne : l ≠ []) :
    sanitizedPrices l ≠ [] := by
  obtain ⟨p, hp, hple⟩ := exists_mem_sq_dev_le l hne
  have habs : |p - mean l| ≤ stdDev l := by
    have h1 : Real.sqrt ((p - mean l) ^ 2) ≤ Real.sqrt (variance l) :=
      Real.sqrt_le_sqrt hple
    rwa [Real.sqrt_sq_eq_abs] at h1
  have hb := abs_le.mp habs
  have hmem : p ∈ sanitizedPrices l := by
    apply List.mem_filter.mpr
    refine ⟨hp, ?_⟩
    rw [decide_eq_true_eq]
    constructor
    · unfold lowerLimit
      linarith [hb.1]
    · unfold upperLimit
      linarith [hb.2]
  exact List.ne_nil_of_mem hmem

/-! The claim theorems about calculateStats. -/

/-- C6: on the empty quote list and any quantity, calculateStats returns
zero in all eleven output fields. -/
theorem calculateStats_empty_all_zero (quantity : ℝ) :
    (calculateStats [] quantity).min = 0 ∧
    (calculateStats [] quantity).mean = 0 ∧
    (calculateStats [] quantity).median = 0 ∧
    (calculateStats [] quantity).stdDev = 0 ∧
    (calculateStats [] quantity).cv = 0 ∧
    (calculateStats [] quantity).lowerLimit = 0 ∧
    (calculateStats [] quantity).upperLimit = 0 ∧
    (calculateStats [] quantity).sanitizedMean = 0 ∧
    (calculateStats [] quantity).totalEstimated = 0 ∧
    (calculateStats [] quantity).validQuotes = 0 ∧
    (calculateStats [] quantity).outliersCount = 0 := by
  simp [calculateStats_nil]

/-- C7: on a single-quote list, mean, median and min all equal the unit
price, the standard deviation is zero, and the sanitized mean equals the
unit price. -/
theorem calculateStats_singleton (q : Quote) (quantity : ℝ) :
    (calculateStats [q] quantity).mean = q.unit_price ∧
    (calculateStats [q] quantity).median = q.unit_price ∧
    (calculateStats [q] quantity).min = q.unit_price ∧
    (calculateStats [q] quantity).stdDev = 0 ∧
    (calculateStats [q] quantity).sanitizedMean = q.unit_price := by
  rw [calculateStats_of_ne_nil [q] quantity (List.cons_ne_nil _ _)]
  rw [prices_singleton]
  refine ⟨mean_singleton _, ?_, rfl, stdDev_singleton _, sanitizedMean_singleton _⟩
  simp [median]

/-- C5: the count of prices inside the band plus the outlier count always
equals the number of quotes. -/
theorem calculateStats_counts_partition (quotes : List Quote) (quantity : ℝ) :
    (calculateStats quotes quantity).validQuotes +
      (calculateStats quotes quantity).outliersCount = quotes.length := by
  by_cases h : quotes = []
  · subst h
    simp [calculateStats_nil]
  · rw [calculateStats_of_ne_nil quotes quantity h]
    dsimp only
    have hle := List.length_filter_le
      (fun p => decide (lowerLimit (prices quotes) ≤ p ∧ p ≤ upperLimit (prices quotes)))
      (prices quotes)
    have hl := prices_length quotes
    unfold sanitizedPrices
    omega

/-- C2: the sanitized mean lies between the minimum and the maximum of
the raw price list. -/
theorem calculateStats_sanitizedMean_bounds (quotes : List Quote) (quantity : ℝ)
    (lo hi : ℝ)
    (hlo : (quotes.map Quote.unit_price).minimum = (lo : WithTop ℝ))
    (hhi : (quotes.map Quote.unit_price).maximum = (hi : WithBot ℝ)) :
    lo ≤ (calculateStats quotes quantity).sanitizedMean ∧
    (calculateStats quotes quantity).sanitizedMean ≤ hi := by
  have hne : quotes.map Quote.unit_price ≠ [] := by
    intro hnil
    rw [hnil, List.minimum_nil] at hlo
    exact WithTop.coe_ne_top hlo.symm
  have hq : quotes ≠ [] := by
    intro h0
    apply hne
    rw [h0]
    rfl
  rw [calculateStats_of_ne_nil quotes quantity hq]
  dsimp only
  have hperm := prices_perm quotes
  have hmemlo : ∀ x ∈ prices quotes, lo ≤ x := fun x hx =>
    List.minimum_le_of_mem (hperm.mem_iff.mp hx) hlo
  have hmemhi : ∀ x ∈ prices quotes, x ≤ hi := fun x hx =>
    List.le_maximum_of_mem (hperm.mem_iff.mp hx) hhi
  have hpne : prices quotes ≠ [] := prices_ne_nil hq
  unfold sanitizedMean
  by_cases hsp : (sanitizedPrices (prices quotes)).length > 0
  · rw [if_pos hsp]
    have hspne : sanitizedPrices (prices quotes) ≠ [] := List.length_pos.mp hsp
    have hsub : ∀ x ∈ sanitizedPrices (prices quotes), x ∈ prices quotes :=
      fun x hx => (List.mem_filter.mp hx).1
    exact ⟨le_listMean_of_forall_le hspne fun x hx => hmemlo x (hsub x hx),
           listMean_le_of_forall_le hspne fun x hx => hmemhi x (hsub x hx)⟩
  · rw [if_neg hsp]
    unfold mean
    exact ⟨le_listMean_of_forall_le hpne hmemlo,
           listMean_le_of_forall_le hpne hmemhi⟩

/-- Witness for the C2 theorem on a one-quote list with unit price 2 and
quantity 1. -/
theorem calculateStats_sanitizedMean_bounds_witness :
    (([⟨1, 1, "s", 0, 2, QuoteType.private_⟩] : List Quote).map
        Quote.unit_price).minimum = ((2 : ℝ) : WithTop ℝ) ∧
    (([⟨1, 1, "s", 0, 2, QuoteType.private_⟩] : List Quote).map
        Quote.unit_price).maximum = ((2 : ℝ) : WithBot ℝ) ∧
    ((2 : ℝ) ≤
        (calculateStats [⟨1, 1, "s", 0, 2, QuoteType.private_⟩] 1).sanitizedMean ∧
      (calculateStats [⟨1, 1, "s", 0, 2, QuoteType.private_⟩] 1).sanitizedMean ≤
        (2 : ℝ)) :=
  ⟨by simp [List.minimum_singleton], by simp [List.maximum_singleton],
   calculateStats_sanitizedMean_bounds _ 1 2 2
     (by simp [List.minimum_singleton]) (by simp [List.maximum_singleton])⟩

/-- C9: for a non-empty quote list the one-sigma band always contains at
least one price, so the fallback branch returning the raw mean is never
taken: the sanitized mean is always the mean of the filtered list. -/
theorem calculateStats_band_nonempty (quotes : List Quote) (quantity : ℝ)
    (h : quotes ≠ []) :
    sanitizedPrices (prices quotes) ≠ [] ∧
    (calculateStats quotes quantity).sanitizedMean =
      (sanitizedPrices (prices quotes)).sum /
        (sanitizedPrices (prices quotes)).length := by
  have hpne : prices quotes ≠ [] := prices_ne_nil h
  have hspne := sanitizedPrices_ne_nil (prices quotes) hpne
  refine ⟨hspne, ?_⟩
  rw [calculateStats_of_ne_nil quotes quantity h]
  dsimp only
  unfold sanitizedMean
  rw [if_pos (List.length_pos.mpr hspne)]

/-- Witness for the C9 theorem on a one-quote list with unit price 2. -/
theorem calculateStats_band_nonempty_witness :
    ([⟨1, 1, "s", 0, 2, QuoteType.private_⟩] : List Quote) ≠ [] ∧
    (sanitizedPrices (prices [⟨1, 1, "s", 0, 2, QuoteType.private_⟩]) ≠ [] ∧
      (calculateStats [⟨1, 1, "s", 0, 2, QuoteType.private_⟩] 1).sanitizedMean =
        (sanitizedPrices (prices [⟨1, 1, "s", 0, 2, QuoteType.private_⟩])).sum /
          (sanitizedPrices (prices [⟨1, 1, "s", 0, 2, QuoteType.private_⟩])).length) :=
  ⟨List.cons_ne_nil _ _,
   calculateStats_band_nonempty _ 1 (List.cons_ne_nil _ _)⟩

/-- C1: the sanitized mean computed by calculateStats is the arithmetic
mean of exactly those raw prices within one standard deviation of the
mean, falling back to the raw mean when that set is empty, and the
reported band limits are the mean minus and plus the standard
deviation. -/
theorem calculateStats_sanitizedMean_spec (quotes : List Quote) (quantity : ℝ)
    (h : quotes ≠ []) :
    (calculateStats quotes quantity).sanitizedMean =
      specSanitizedMean (quotes.map Quote.unit_price) ∧
    (calculateStats quotes quantity).lowerLimit =
      specMean (quotes.map Quote.unit_price) -
        specStdDev (quotes.map Quote.unit_price) ∧
    (calculateStats quotes quantity).upperLimit =
      specMean (quotes.map Quote.unit_price) +
        specStdDev (quotes.map Quote.unit_price) := by
  rw [calculateStats_of_ne_nil quotes quantity h]
  dsimp only
  have hperm := prices_perm quotes
  refine ⟨?_, ?_, ?_⟩
  · rw [sanitizedMean_perm hperm, sanitizedMean_eq_specSanitizedMean]
  · rw [show lowerLimit (prices quotes) =
        mean (prices quotes) - stdDev (prices quotes) from rfl,
      mean_perm hperm, stdDev_perm hperm]
    rfl
  · rw [show upperLimit (prices quotes) =
        mean (prices quotes) + stdDev (prices quotes) from rfl,
      mean_perm hperm, stdDev_perm hperm]
    rfl

/-- Witness for the C1 theorem on a one-quote list with unit price 2 and
quantity 1. -/
theorem calculateStats_sanitizedMean_spec_witness :
    ([⟨1, 1, "s", 0, 2, QuoteType.private_⟩] : List Quote) ≠ [] ∧
    ((calculateStats [⟨1, 1, "s", 0, 2, QuoteType.private_⟩] 1).sanitizedMean =
      specSanitizedMean (([⟨1, 1, "s", 0, 2, QuoteType.private_⟩] : List Quote).map
        Quote.unit_price) ∧
    (calculateStats [⟨1, 1, "s", 0, 2, QuoteType.private_⟩] 1).lowerLimit =
      specMean (([⟨1, 1, "s", 0, 2, QuoteType.private_⟩] : List Quote).map
        Quote.unit_price) -
        specStdDev (([⟨1, 1, "s", 0, 2, QuoteType.private_⟩] : List Quote).map
          Quote.unit_price) ∧
    (calculateStats [⟨1, 1, "s", 0, 2, QuoteType.private_⟩] 1).upperLimit =
      specMean (([⟨1, 1, "s", 0, 2, QuoteType.private_⟩] : List Quote).map
        Quote.unit_price) +
        specStdDev (([⟨1, 1, "s", 0, 2, QuoteType.private_⟩] : List Quote).map
          Quote.unit_price)) :=
  ⟨List.cons_ne_nil _ _,
   calculateStats_sanitizedMean_spec _ 1 (List.cons_ne_nil _ _)⟩

/-! Lemmas about the cascading delete and the DELETE endpoints. -/

/-- Membership in the process list after a cascading delete. -/
lemma mem_deleteProcess_processes {data : DBData} {id : Int} {p : Process} :
    p ∈ (deleteProcess data id).processes ↔ p ∈ data.processes ∧ p.id ≠ id := by
  simp [deleteProcess, List.mem_filter, bne_iff_ne]

/-- Membership in the item list after a cascading delete. -/
lemma mem_deleteProcess_items {data : DBData} {id : Int} {i : Item} :
    i ∈ (deleteProcess data id).items ↔ i ∈ data.items ∧ i.process_id ≠ id := by
  simp [deleteProcess, List.mem_filter, bne_iff_ne]

/-- Membership in the quote list after a cascading delete: the quote
survives exactly when it does not reference any item of the deleted
process. -/
lemma mem_deleteProcess_quotes {data : DBData} {id : Int} {q : Quote} :
    q ∈ (deleteProcess data id).quotes ↔
      q ∈ data.quotes ∧ ∀ i ∈ data.items, i.process_id = id → q.item_id ≠ i.id := by
  simp only [deleteProcess, List.mem_filter, Bool.not_eq_true']
  constructor
  · rintro ⟨hq, hc⟩
    refine ⟨hq, ?_⟩
    intro i hi hpid hqi
    have hmem : q.item_id ∈ (data.items.filter fun j => j.process_id == id).map Item.id := by
      apply List.mem_map.mpr
      exact ⟨i, List.mem_filter.mpr ⟨hi, by simp [hpid]⟩, hqi.symm⟩
    simp only [List.contains, List.elem_eq_mem, decide_eq_false_iff_not] at hc
    exact hc hmem
  · rintro ⟨hq, hc⟩
    refine ⟨hq, ?_⟩
    simp only [List.contains, List.elem_eq_mem, decide_eq_false_iff_not]
    intro hmem
    obtain ⟨i, hi, hqi⟩ := List.mem_map.mp hmem
    have hif := List.mem_filter.mp hi
    exact hc i hif.1 (by simpa using hif.2) hqi.symm

/-- C4: for a store satisfying referential integrity, deleting a process
removes that process, all items of that process and all quotes of those
items, keeps every other process, item and quote, and the resulting
store again satisfies referential integrity. -/
theorem deleteProcess_cascade (data : DBData) (id : Int)
    (hri : refIntegrity data) :
    (∀ p ∈ (deleteProcess data id).processes, p.id ≠ id) ∧
    (∀ p ∈ data.processes, p.id ≠ id → p ∈ (deleteProcess data id).processes) ∧
    (∀ i ∈ (deleteProcess data id).items, i.process_id ≠ id) ∧
    (∀ i ∈ data.items, i.process_id ≠ id → i ∈ (deleteProcess data id).items) ∧
    (∀ q ∈ (deleteProcess data id).quotes, ∀ i ∈ data.items,
        i.process_id = id → q.item_id ≠ i.id) ∧
    (∀ q ∈ data.quotes,
        (∀ i ∈ data.items, i.process_id = id → q.item_id ≠ i.id) →
        q ∈ (deleteProcess data id).quotes) ∧
    refIntegrity (deleteProcess data id) := by
  refine ⟨?_, ?_, ?_, ?_, ?_, ?_, ?_, ?_⟩
  · exact fun p hp => (mem_deleteProcess_processes.mp hp).2
  · exact fun p hp hne => mem_deleteProcess_processes.mpr ⟨hp, hne⟩
  · exact fun i hi => (mem_deleteProcess_items.mp hi).2
  · exact fun i hi hne => mem_deleteProcess_items.mpr ⟨hi, hne⟩
  · exact fun q hq => (mem_deleteProcess_quotes.mp hq).2
  · exact fun q hq hc => mem_deleteProcess_quotes.mpr ⟨hq, hc⟩
  · intro i hi
    obtain ⟨hi0, hne⟩ := mem_deleteProcess_items.mp hi
    obtain ⟨p, hp, hpid⟩ := hri.1 i hi0
    exact ⟨p, mem_deleteProcess_processes.mpr ⟨hp, fun h0 => hne (by rw [← hpid]; exact h0)⟩, hpid⟩
  · intro q hq
    obtain ⟨hq0, hc⟩ := mem_deleteProcess_quotes.mp hq
    obtain ⟨i, hi, hiid⟩ := hri.2 q hq0
    have hne : i.process_id ≠ id := fun h0 => hc i hi h0 hiid.symm
    exact ⟨i, mem_deleteProcess_items.mpr ⟨hi, hne⟩, hiid⟩

/-- The empty store, used as concrete input for the endpoint theorems. -/
def emptyDB : DBData := { processes := [], items := [], quotes := [] }

/-- A one-process, one-item, one-quote store satisfying referential
integrity, used as concrete input for the cascade theorems. -/
def sampleDB : DBData :=
  { processes := [⟨1, "P1", "obj", "2024-01-01"⟩],
    items := [⟨10, 1, 1, "spec", "un", 2, "sanitized"⟩],
    quotes := [⟨100, 10, "s", 0, 5, QuoteType.private_⟩] }

/-- C8 counterexample: deleting a process whose id is not present does
not return 404.  On the empty store, where process 1 does not exist, the
DELETE processes endpoint answers HTTP 200 with success, refuting the
claim that every endpoint returns 404 when the targeted resource does
not exist. -/
theorem deleteProcessEndpoint_missing_not_404 :
    (deleteProcessEndpoint emptyDB 1).1 = 200 ∧
    (deleteProcessEndpoint emptyDB 1).1 ≠ 404 := by
  exact ⟨rfl, by decide⟩

/-- C8 (amended): deleting an item or a quote whose id is not present
returns HTTP 404, but deleting a process always returns HTTP 200 with
success, even when no process has the id. -/
theorem deleteEndpoints_not_found (data : DBData) (id : Int)
    (hi : ∀ i ∈ data.items, i.id ≠ id)
    (hq : ∀ q ∈ data.quotes, q.id ≠ id) :
    (deleteItemEndpoint data id).1 = 404 ∧
    (deleteQuoteEndpoint data id).1 = 404 ∧
    (deleteProcessEndpoint data id).1 = 200 := by
  refine ⟨?_, ?_, rfl⟩
  · have hfil : data.items.filter (fun i => i.id != id) = data.items :=
      List.filter_eq_self.mpr fun i hmem => by
        simpa [bne_iff_ne] using hi i hmem
    unfold deleteItemEndpoint
    rw [hfil, if_pos rfl]
  · have hfil : data.quotes.filter (fun q => q.id != id) = data.quotes :=
      List.filter_eq_self.mpr fun q hmem => by
        simpa [bne_iff_ne] using hq q hmem
    unfold deleteQuoteEndpoint
    rw [hfil, if_pos rfl]

/-- Witness for the amended C8 theorem on the empty store and id 1. -/
theorem deleteEndpoints_not_found_witness :
    (∀ i ∈ emptyDB.items, i.id ≠ 1) ∧
    (∀ q ∈ emptyDB.quotes, q.id ≠ 1) ∧
    ((deleteItemEndpoint emptyDB 1).1 = 404 ∧
     (deleteQuoteEndpoint emptyDB 1).1 = 404 ∧
     (deleteProcessEndpoint emptyDB 1).1 = 200) :=
  ⟨by simp [emptyDB], by simp [emptyDB],
   deleteEndpoints_not_found emptyDB 1 (by simp [emptyDB]) (by simp [emptyDB])⟩

/-- Witness for the C4 theorem on the one-process, one-item, one-quote
store, deleting process 1. -/
theorem deleteProcess_cascade_witness :
    refIntegrity sampleDB ∧
    ((∀ p ∈ (deleteProcess sampleDB 1).processes, p.id ≠ 1) ∧
     (∀ p ∈ sampleDB.processes, p.id ≠ 1 →
        p ∈ (deleteProcess sampleDB 1).processes) ∧
     (∀ i ∈ (deleteProcess sampleDB 1).items, i.process_id ≠ 1) ∧
     (∀ i ∈ sampleDB.items, i.process_id ≠ 1 →
        i ∈ (deleteProcess sampleDB 1).items) ∧
     (∀ q ∈ (deleteProcess sampleDB 1).quotes, ∀ i ∈ sampleDB.items,
        i.process_id = 1 → q.item_id ≠ i.id) ∧
     (∀ q ∈ sampleDB.quotes,
        (∀ i ∈ sampleDB.items, i.process_id = 1 → q.item_id ≠ i.id) →
        q ∈ (deleteProcess sampleDB 1).quotes) ∧
     refIntegrity (deleteProcess sampleDB 1)) :=
  ⟨⟨by simp [refIntegrity, sampleDB], by simp [refIntegrity, sampleDB]⟩,
   deleteProcess_cascade sampleDB 1
     ⟨by simp [refIntegrity, sampleDB], by simp [refIntegrity, sampleDB]⟩⟩

end MapaPrecos
